import Mathlib

/-!
# Verification of `fuzzinator/reduce/picireny.py`

A shallow embedding of the `Picireny` reducer function
(`src/fuzzinator/reduce/picireny.py`) and of the test oracle adapter it
configures, together with proofs about the configuration-resolution and
result-normalisation logic.

Modelling conventions:
* Python byte strings are `List Nat`; opaque external objects resolved by
  name (hddmin strategies, split methods, iterators, cache classes, island
  descriptors) are represented by `String` tokens.
* The external collaborators (`picire`/`picireny` attribute tables,
  `chardet.detect`, the file system, `json.loads`, and the reduction engine
  `picireny.call`) are fields of an environment record `Env`; a `getattr`
  or dict lookup that would raise is a table returning `none`.
* Exceptions are `Except PyError`; the listener's `warning` channel is
  modelled as a `List String` of emitted warning messages, paired with the
  result.
* `eval_arg` (picireny.py lines 69-70) is the identity on non-string
  values; the embedding takes the boolean/integer options already typed,
  i.e. after that expression-evaluation step.
* The shared `issues` dict mutated by the tester during the engine run is
  threaded as explicit state: `Env.call` receives the initial mapping and
  returns the final mapping together with either the reduced-file path or
  an exception.
-/

namespace Fuzzinator

/-- Python byte strings. -/
abbrev Bytes := List Nat

/-- Opaque hddmin strategy object from `picireny.cli.args_hdd_choices`. -/
abbrev HddMin := String

/-- Opaque split-strategy object from `picire.config_splitters`. -/
abbrev Splitter := String

/-- Opaque iterator object from `picire.config_iterators`. -/
abbrev Iterator := String

/-- Opaque cache class resolved by `getattr(picire, cache_class)`. -/
abbrev CacheBase := String

/-- Opaque parsed island descriptor tree. -/
abbrev IslandDesc := String

/-- A parsed grammar file list (result of `json.loads(grammar)`). -/
abbrev Grammar := List String

/-- Replacement mapping. -/
abbrev Repl := List (String × String)

/-- An issue observed while running the system under test: the failure
identity together with the rest of the record (opaque). -/
structure OIssue where
  id : String
  data : Nat
deriving DecidableEq

/-- The issue being reduced: `issue['test']`, `issue['id']`,
`issue.get('filename', 'test')`. -/
structure Issue where
  test : Bytes
  id : String
  filename : Option String
deriving DecidableEq

/-- The shared discovered-issues dict, in insertion order. -/
abbrev IssuesMap := List (String × OIssue)

deriving instance DecidableEq for Except

/-- Python exceptions distinguished by the embedding. -/
inductive PyError
  | keyError
  | attributeError
  | typeError
  | osError
  | jsonError
deriving DecidableEq

/-- The cache value handed to the engine: either the bare class resolved
from `picire`, or that class wrapped by `picire.shared_cache_decorator`. -/
inductive CacheVal
  | bare (c : CacheBase)
  | shared (c : CacheBase)
deriving DecidableEq

/-- The reducer class chosen in picireny.py lines 102-120. -/
inductive ReduceClass
  | LightDD
  | ParallelDD
  | CombinedParallelDD
deriving DecidableEq

/-- `picire.CombinedIterator(subset_first, subset_iterator, complement_iterator)`. -/
structure CombinedIterator where
  subset_first : Bool
  subset_iterator : Iterator
  complement_iterator : Iterator
deriving DecidableEq

/-- The `reduce_config` dict; keys absent from the dict are `none`. -/
structure ReduceConfig where
  split : Splitter
  subset_iterator : Option Iterator
  complement_iterator : Option Iterator
  subset_first : Option Bool
  proc_num : Option Nat
  max_utilization : Option Nat
  config_iterator : Option CombinedIterator
deriving DecidableEq

/-- The `tester_config` dict (lines 125-133); the shared `issues` dict it
also references is threaded separately as explicit state. -/
structure TesterConfig where
  sut_call : String
  sut_call_kwargs : List (String × String)
  enc : Option String
  expected : String
  listener : String
  ident : String
deriving DecidableEq

/-- The value of the local `islands` variable after lines 94-100: `None`
(or a falsy path) when no islands were given, a parsed descriptor on
success, or the original path string (the variable is never reassigned in
the `except` branch). -/
inductive IslandsVal
  | nil
  | desc (d : IslandDesc)
  | path (p : String)
deriving DecidableEq

/-- The `call_config` dict assembled in lines 135-154. -/
structure CallConfig where
  reduce_class : ReduceClass
  reduce_config : ReduceConfig
  tester_class : String
  tester_config : TesterConfig
  input : String
  src : Bytes
  encoding : Option String
  out : String
  hddmin : HddMin
  antlr : String
  grammar : Grammar
  start_rule : String
  replacements : Repl
  islands : IslandsVal
  lang : String
  hdd_star : Bool
  squeeze_tree : Bool
  skip_unremovable_tokens : Bool
  cache_class : CacheVal
  cleanup : Bool
deriving DecidableEq

/-- The external collaborators of the reducer. -/
structure Env where
  cpu_count : Nat
  antlr_default_path : String
  hdd_choices : String → Option HddMin
  config_splitters : String → Option Splitter
  config_iterators : String → Option Iterator
  picire_attrs : String → Option CacheBase
  detect : Bytes → Option String
  fs : String → Option Bytes
  islandParse : Bytes → Option IslandDesc
  json_loads : String → Option Grammar
  call : CallConfig → IssuesMap → IssuesMap × Except Unit String

/-- The keyword arguments of `Picireny` (lines 23-29); options whose
Python default is `None` or computed at def time are `Option`s. -/
structure Args where
  sut_call : String
  sut_call_kwargs : List (String × String)
  listener : String
  ident : String
  issue : Issue
  work_dir : String
  grammar : String
  start_rule : String
  hddmin : Option String
  parallel : Bool
  combine_loops : Bool
  split_method : String
  subset_first : Bool
  subset_iterator : String
  complement_iterator : String
  jobs : Option Nat
  max_utilization : Nat
  encoding : Option String
  antlr : Option String
  replacements : Option Repl
  islands : Option String
  lang : String
  hdd_star : Bool
  squeeze_tree : Bool
  skip_unremovable_tokens : Bool
  cache_class : String
  cleanup : Bool

/-- Line 77, index expression: `hddmin if hddmin else 'full'`
(Python truthiness: `None` and the empty string select `'full'`). -/
def hddKey : Option String → String
  | none => "full"
  | some s => if s = "" then "full" else s

/-- Line 79: `jobs = 1 if not parallel else eval_arg(jobs)`, with the
def-time default `jobs=os.cpu_count()` supplied when `jobs` was not given. -/
def resolveJobs (parallel : Bool) (jobs : Option Nat) (cpu : Nat) : Nat :=
  if !parallel then 1 else jobs.getD cpu

/-- Line 80: `encoding = encoding or chardet.detect(src)['encoding']`. -/
def resolveEncoding (env : Env) (encoding : Option String) (src : Bytes) : Option String :=
  match encoding with
  | none => env.detect src
  | some e => if e = "" then env.detect src else some e

/-- Line 144: `antlr or picireny.cli.antlr_default_path`. -/
def resolveAntlr (env : Env) : Option String → String
  | none => env.antlr_default_path
  | some s => if s = "" then env.antlr_default_path else s

/-- CPython `%`-formatting of a format string against a single non-tuple,
non-mapping argument: when the format string contains no `%` character
there is no conversion specifier, the argument is left unconsumed, and
CPython raises `TypeError: not all arguments converted during string
formatting`.  (The `ok` branch is a stub: the only format string this
development applies it to contains no `%`.) -/
def pyPercentFormat (fmt : String) : Except PyError String :=
  if fmt.toList.contains '%' then Except.ok fmt else Except.error PyError.typeError

/-- Lines 94-100: load and parse the island descriptor file.  The
`open`/`read` (lines 95-96) are outside the `try`, so an I/O failure
propagates; a decode/parse failure reaches the `except` branch, which
evaluates `'Exception in island descriptor: ' % err` — raising `TypeError`
before `listener.warning` is ever called, so the warning list stays empty
and the exception propagates.  Returns the emitted warnings and either the
resulting `islands` value or the propagated exception. -/
def loadIslands (env : Env) (islands : Option String) :
    List String × Except PyError IslandsVal :=
  match islands with
  | none => ([], Except.ok IslandsVal.nil)
  | some p =>
    if p = "" then ([], Except.ok (IslandsVal.path ""))
    else
      match env.fs p with
      | none => ([], Except.error PyError.osError)
      | some bs =>
        match env.islandParse bs with
        | some d => ([], Except.ok (IslandsVal.desc d))
        | none =>
          match pyPercentFormat "Exception in island descriptor: " with
          | Except.error e => ([], Except.error e)
          | Except.ok msg => ([msg], Except.ok (IslandsVal.path p))

/-- Lines 102-120: choose the reducer class and its configuration. -/
def chooseReducer (parallel combine_loops : Bool) (split : Splitter)
    (subsetIt complementIt : Iterator) (subset_first : Bool)
    (jobs max_utilization : Nat) : ReduceClass × ReduceConfig :=
  if !parallel then
    (ReduceClass.LightDD,
      { split := split
        subset_iterator := some subsetIt
        complement_iterator := some complementIt
        subset_first := some subset_first
        proc_num := none
        max_utilization := none
        config_iterator := none })
  else if combine_loops then
    (ReduceClass.CombinedParallelDD,
      { split := split
        subset_iterator := none
        complement_iterator := none
        subset_first := none
        proc_num := some jobs
        max_utilization := some max_utilization
        config_iterator := some
          { subset_first := subset_first
            subset_iterator := subsetIt
            complement_iterator := complementIt } })
  else
    (ReduceClass.ParallelDD,
      { split := split
        subset_iterator := some subsetIt
        complement_iterator := some complementIt
        subset_first := some subset_first
        proc_num := some jobs
        max_utilization := some max_utilization
        config_iterator := none })

/-- The `call_config` dict of lines 135-154, given the values resolved by
the name lookups, the island loader and `json.loads(grammar)`. -/
def mkCallConfig (env : Env) (a : Args) (hddminV : HddMin) (splitV : Splitter)
    (subsetIt complementIt : Iterator) (cacheBase : CacheBase)
    (islandsV : IslandsVal) (grammarV : Grammar) : CallConfig :=
  let jobsV := resolveJobs a.parallel a.jobs env.cpu_count
  let encodingV := resolveEncoding env a.encoding a.issue.test
  let rc := chooseReducer a.parallel a.combine_loops splitV subsetIt complementIt
    a.subset_first jobsV a.max_utilization
  { reduce_class := rc.1
    reduce_config := rc.2
    tester_class := "PicireTester"
    tester_config :=
      { sut_call := a.sut_call
        sut_call_kwargs := a.sut_call_kwargs
        enc := encodingV
        expected := a.issue.id
        listener := a.listener
        ident := a.ident }
    input := a.issue.filename.getD "test"
    src := a.issue.test
    encoding := encodingV
    out := a.work_dir
    hddmin := hddminV
    antlr := resolveAntlr env a.antlr
    grammar := grammarV
    start_rule := a.start_rule
    replacements := a.replacements.getD []
    islands := islandsV
    lang := a.lang
    hdd_star := a.hdd_star
    squeeze_tree := a.squeeze_tree
    skip_unremovable_tokens := a.skip_unremovable_tokens
    cache_class := if a.parallel then CacheVal.shared cacheBase else CacheVal.bare cacheBase
    cleanup := a.cleanup }

/-- Lines 74-154 of `Picireny`: everything up to (but excluding) the
`picireny.call` invocation, in source order: the `args_hdd_choices` dict
lookup (line 77), the `getattr` lookups on `picire.config_splitters`,
`picire.config_iterators` and `picire` (lines 87-90), the island loading
block (lines 94-100), and the `call_config` dict whose `grammar` field
evaluates `json.loads(grammar)` (line 145).  Returns the warnings emitted
so far and either the assembled call configuration or the propagated
exception. -/
def PicirenyAssemble (env : Env) (a : Args) :
    List String × Except PyError CallConfig :=
  match env.hdd_choices (hddKey a.hddmin) with
  | none => ([], Except.error PyError.keyError)
  | some hddminV =>
    match env.config_splitters a.split_method with
    | none => ([], Except.error PyError.attributeError)
    | some splitV =>
      match env.config_iterators a.subset_iterator with
      | none => ([], Except.error PyError.attributeError)
      | some subsetIt =>
        match env.config_iterators a.complement_iterator with
        | none => ([], Except.error PyError.attributeError)
        | some complementIt =>
          match env.picire_attrs a.cache_class with
          | none => ([], Except.error PyError.attributeError)
          | some cacheBase =>
            match loadIslands env a.islands with
            | (ws, Except.error e) => (ws, Except.error e)
            | (ws, Except.ok islandsV) =>
              match env.json_loads a.grammar with
              | none => (ws, Except.error PyError.jsonError)
              | some grammarV =>
                (ws, Except.ok (mkCallConfig env a hddminV splitV subsetIt
                  complementIt cacheBase islandsV grammarV))

/-- The whole `Picireny` reducer (lines 23-165): assemble the call
configuration, invoke `picireny.call` on it with the initially empty
shared `issues` dict (lines 156-160: an exception from the engine is
caught and turned into `(None, list(issues.values()))`), and on success
read the reduced file back (lines 162-165, outside the `try`).  The result
pairs the warnings emitted with either the propagated exception or the
returned `(reduced test or None, list of discovered issues)`. -/
def Picireny (env : Env) (a : Args) :
    List String × Except PyError (Option Bytes × List OIssue) :=
  match PicirenyAssemble env a with
  | (ws, Except.error e) => (ws, Except.error e)
  | (ws, Except.ok cfg) =>
    match env.call cfg [] with
    | (m, Except.error _) => (ws, Except.ok (none, m.map Prod.snd))
    | (m, Except.ok reduced_file) =>
      match env.fs reduced_file with
      | none => (ws, Except.error PyError.osError)
      | some bs => (ws, Except.ok (some bs, m.map Prod.snd))

/-- Python dict assignment `m[k] = v` on an insertion-ordered dict:
if the key is present its value is replaced in place, otherwise the pair
is appended. -/
def dictInsert (m : IssuesMap) (k : String) (v : OIssue) : IssuesMap :=
  if m.any (fun p => p.1 = k) then
    m.map (fun p => if p.1 = k then (k, v) else p)
  else m ++ [(k, v)]

/-- One outcome of invoking the system under test on a candidate: either
no failure at all, or a failure with some identity. -/
inductive Outcome
  | ok
  | issue (i : OIssue)
deriving DecidableEq

/-- The classification the oracle reports back to the reduction engine. -/
inductive TestResult
  | fail
  | pass
deriving DecidableEq

/-- Modelled from the spec: the Test Oracle Adapter `PicireTester`
(imported from `fuzzinator/reduce/picire_tester.py` at line 16, a file not
present under `src/`).  Spec 4.3: the adapter runs the system under test
on the candidate and compares the outcome's identity against the expected
issue's identity; a match is reported as "fail" and records nothing; no
failure at all is "pass"; a different failure is recorded into the shared
discovered-issues dict keyed by its identity (so repeats collapse to one
entry) and is still reported as "pass". -/
def testerStep (expected : String) (m : IssuesMap) (o : Outcome) :
    TestResult × IssuesMap :=
  match o with
  | Outcome.ok => (TestResult.pass, m)
  | Outcome.issue i =>
    if i.id = expected then (TestResult.fail, m)
    else (TestResult.pass, dictInsert m i.id i)

/-- The discovered-issues dict after a sequence of oracle invocations. -/
def testerRun (expected : String) (os : List Outcome) (m : IssuesMap) : IssuesMap :=
  os.foldl (fun acc o => (testerStep expected acc o).2) m

/-! Concrete fixtures used by the witness theorems. -/

/-- A concrete issue under reduction. -/
def issue0 : Issue := { test := [102, 111, 111], id := "crash-1", filename := some "t.html" }

/-- A concrete issue with a different identity, discovered mid-run. -/
def oi0 : OIssue := { id := "crash-2", data := 7 }

/-- A concrete, fully valid argument record (sequential defaults). -/
def args0 : Args :=
  { sut_call := "sut"
    sut_call_kwargs := []
    listener := "listener"
    ident := "ident"
    issue := issue0
    work_dir := "wd"
    grammar := "[\"g.g4\"]"
    start_rule := "start"
    hddmin := none
    parallel := false
    combine_loops := false
    split_method := "zeller"
    subset_first := true
    subset_iterator := "forward"
    complement_iterator := "forward"
    jobs := none
    max_utilization := 100
    encoding := some "utf-8"
    antlr := none
    replacements := none
    islands := none
    lang := "python"
    hdd_star := true
    squeeze_tree := true
    skip_unremovable_tokens := true
    cache_class := "ContentCache"
    cleanup := true }

/-- A concrete environment whose lookup tables know exactly the names used
by `args0`, whose island files never parse, and whose engine always raises. -/
def env0 : Env :=
  { cpu_count := 8
    antlr_default_path := "antlr4.jar"
    hdd_choices := fun s => if s = "full" then some "hddmin-full" else none
    config_splitters := fun s => if s = "zeller" then some "split-zeller" else none
    config_iterators := fun s =>
      if s = "forward" then some "it-forward"
      else if s = "skip" then some "it-skip" else none
    picire_attrs := fun s => if s = "ContentCache" then some "ContentCache" else none
    detect := fun _ => some "utf-8"
    fs := fun p => if p = "islands.json" then some [33] else none
    islandParse := fun _ => none
    json_loads := fun s => if s = "[\"g.g4\"]" then some ["g.g4"] else none
    call := fun _ m => (m, Except.error ()) }

/-- An environment whose engine records one new issue and then raises. -/
def envC4 : Env := { env0 with call := fun _ _ => ([("crash-2", oi0)], Except.error ()) }

/-- A placeholder configuration (only used as the default of `getOkCfg`,
with a worker count that no real configuration produces). -/
def dummyCfg : CallConfig :=
  { reduce_class := ReduceClass.LightDD
    reduce_config :=
      { split := "dummy"
        subset_iterator := none
        complement_iterator := none
        subset_first := none
        proc_num := some 999
        max_utilization := none
        config_iterator := none }
    tester_class := "dummy"
    tester_config :=
      { sut_call := "dummy"
        sut_call_kwargs := []
        enc := none
        expected := "dummy"
        listener := "dummy"
        ident := "dummy" }
    input := "dummy"
    src := []
    encoding := none
    out := "dummy"
    hddmin := "dummy"
    antlr := "dummy"
    grammar := []
    start_rule := "dummy"
    replacements := []
    islands := IslandsVal.nil
    lang := "dummy"
    hdd_star := false
    squeeze_tree := false
    skip_unremovable_tokens := false
    cache_class := CacheVal.bare "dummy"
    cleanup := false }

/-- Extract the configuration from a successful assembly. -/
def getOkCfg : Except PyError CallConfig → CallConfig
  | Except.ok c => c
  | Except.error _ => dummyCfg

/-- A concrete oracle-invocation history: the foreign identity `"crash-2"`
is observed twice, a passing run once, and the expected identity once. -/
def outcomes0 : List Outcome :=
  [Outcome.issue { id := "crash-2", data := 7 },
   Outcome.issue { id := "crash-2", data := 8 },
   Outcome.ok,
   Outcome.issue { id := "crash-1", data := 9 }]

/-- `args0` with an islands path whose file exists but does not parse. -/
def argsIsl : Args := { args0 with islands := some "islands.json" }

/-- `args0` with an islands path whose file cannot be opened. -/
def argsIslMissing : Args := { args0 with islands := some "missing.json" }

/-- `args0` with an unknown split-method name. -/
def argsBadSplit : Args := { args0 with split_method := "bogus" }

/-- `args0` with a grammar string that is not valid JSON. -/
def argsBadGrammar : Args := { args0 with grammar := "not json" }

/-- `args0` (sequential) with an explicitly requested worker count of 7. -/
def argsSeq7 : Args := { args0 with jobs := some 7 }

/-- `args0` switched to parallel combined-loop mode with 4 workers. -/
def argsPar : Args := { args0 with parallel := true, combine_loops := true, jobs := some 4 }

/-! ## Helper lemmas -/

theorem dictInsert_keys (m : IssuesMap) (k : String) (v : OIssue) :
    (dictInsert m k v).map Prod.fst =
      if m.any (fun p => p.1 = k) then m.map Prod.fst else m.map Prod.fst ++ [k] := by
  unfold dictInsert
  split
  case isTrue h =>
    rw [List.map_map]
    exact List.map_congr_left (fun p _ => by by_cases hp : p.1 = k <;> simp [hp])
  case isFalse h => simp

theorem not_any_iff_not_mem_keys (m : IssuesMap) (k : String) :
    m.any (fun p => p.1 = k) = false ↔ k ∉ m.map Prod.fst := by
  rw [← Bool.not_eq_true, List.any_eq_true]
  simp only [List.mem_map, decide_eq_true_eq]

theorem mem_keys_dictInsert (m : IssuesMap) (k : String) (v : OIssue) (x : String) :
    x ∈ (dictInsert m k v).map Prod.fst ↔ x ∈ m.map Prod.fst ∨ x = k := by
  rw [dictInsert_keys]
  split
  case isTrue h =>
    rw [List.any_eq_true] at h
    obtain ⟨p, hp, hk⟩ := h
    rw [decide_eq_true_eq] at hk
    constructor
    · exact Or.inl
    · rintro (hx | rfl)
      · exact hx
      · exact List.mem_map.mpr ⟨p, hp, hk⟩
  case isFalse h => simp

theorem dictInsert_keys_nodup (m : IssuesMap) (k : String) (v : OIssue)
    (h : (m.map Prod.fst).Nodup) : ((dictInsert m k v).map Prod.fst).Nodup := by
  rw [dictInsert_keys]
  split
  case isTrue _ => exact h
  case isFalse hf =>
    rw [Bool.not_eq_true] at *
    rw [List.nodup_append]
    exact ⟨h, List.nodup_singleton k,
      by simpa [List.disjoint_singleton] using (not_any_iff_not_mem_keys m k).mp hf⟩

theorem testerStep_keys_mem (expected : String) (m : IssuesMap) (o : Outcome) (x : String) :
    x ∈ ((testerStep expected m o).2.map Prod.fst) ↔
      x ∈ m.map Prod.fst ∨ ∃ i, o = Outcome.issue i ∧ i.id = x ∧ x ≠ expected := by
  cases o with
  | ok => simp [testerStep]
  | issue i =>
    by_cases hid : i.id = expected
    · simp only [testerStep, if_pos hid]
      constructor
      · exact Or.inl
      · rintro (hx | ⟨j, hj, hjx, hne⟩)
        · exact hx
        · cases hj
          exact absurd (hjx ▸ hid) hne
    · simp only [testerStep, if_neg hid]
      rw [mem_keys_dictInsert]
      constructor
      · rintro (hx | rfl)
        · exact Or.inl hx
        · exact Or.inr ⟨i, rfl, rfl, hid⟩
      · rintro (hx | ⟨j, hj, hjx, hne⟩)
        · exact Or.inl hx
        · cases hj
          exact Or.inr hjx.symm

theorem testerStep_keys_nodup (expected : String) (m : IssuesMap) (o : Outcome)
    (h : (m.map Prod.fst).Nodup) : (((testerStep expected m o).2).map Prod.fst).Nodup := by
  cases o with
  | ok => exact h
  | issue i =>
    by_cases hid : i.id = expected
    · simpa [testerStep, if_pos hid] using h
    · simpa [testerStep, if_neg hid] using dictInsert_keys_nodup m i.id i h

theorem testerRun_cons (expected : String) (o : Outcome) (os : List Outcome) (m : IssuesMap) :
    testerRun expected (o :: os) m = testerRun expected os (testerStep expected m o).2 := rfl

theorem testerRun_keys_mem (expected : String) (os : List Outcome) :
    ∀ (m : IssuesMap) (x : String),
      x ∈ (testerRun expected os m).map Prod.fst ↔
        x ∈ m.map Prod.fst ∨ ∃ i, Outcome.issue i ∈ os ∧ i.id = x ∧ x ≠ expected := by
  induction os with
  | nil => simp [testerRun]
  | cons o os ih =>
    intro m x
    rw [testerRun_cons, ih, testerStep_keys_mem]
    constructor
    · rintro ((hx | ⟨i, rfl, hix, hne⟩) | ⟨i, hmem, hix, hne⟩)
      · exact Or.inl hx
      · exact Or.inr ⟨i, List.mem_cons_self _ _, hix, hne⟩
      · exact Or.inr ⟨i, List.mem_cons_of_mem _ hmem, hix, hne⟩
    · rintro (hx | ⟨i, hmem, hix, hne⟩)
      · exact Or.inl (Or.inl hx)
      · rcases List.mem_cons.mp hmem with hco | hmem2
        · exact Or.inl (Or.inr ⟨i, hco.symm, hix, hne⟩)
        · exact Or.inr ⟨i, hmem2, hix, hne⟩

theorem testerRun_keys_nodup (expected : String) (os : List Outcome) :
    ∀ m : IssuesMap, (m.map Prod.fst).Nodup →
      ((testerRun expected os m).map Prod.fst).Nodup := by
  induction os with
  | nil => intro m h; exact h
  | cons o os ih =>
    intro m h
    rw [testerRun_cons]
    exact ih _ (testerStep_keys_nodup expected m o h)

/-- The assembler is independent of the engine behaviour. -/
theorem assemble_call_irrelevant (env : Env) (a : Args)
    (c : CallConfig → IssuesMap → IssuesMap × Except Unit String) :
    PicirenyAssemble { env with call := c } a = PicirenyAssemble env a := rfl

/-- When all name lookups, the island loader and the grammar parse
succeed, the assembler produces exactly the `call_config` of lines
135-154. -/
theorem assemble_eq (env : Env) (a : Args) (hddminV : HddMin) (splitV : Splitter)
    (subsetIt complementIt : Iterator) (cacheBase : CacheBase)
    (ws : List String) (islandsV : IslandsVal) (grammarV : Grammar)
    (h1 : env.hdd_choices (hddKey a.hddmin) = some hddminV)
    (h2 : env.config_splitters a.split_method = some splitV)
    (h3 : env.config_iterators a.subset_iterator = some subsetIt)
    (h4 : env.config_iterators a.complement_iterator = some complementIt)
    (h5 : env.picire_attrs a.cache_class = some cacheBase)
    (h6 : loadIslands env a.islands = (ws, Except.ok islandsV))
    (h7 : env.json_loads a.grammar = some grammarV) :
    PicirenyAssemble env a =
      (ws, Except.ok (mkCallConfig env a hddminV splitV subsetIt complementIt
        cacheBase islandsV grammarV)) := by
  unfold PicirenyAssemble
  rw [h1, h2, h3, h4, h5, h6, h7]

/-- An assembly failure short-circuits the whole reducer. -/
theorem picireny_of_assemble_error (env : Env) (a : Args) (ws : List String) (e : PyError)
    (h : PicirenyAssemble env a = (ws, Except.error e)) :
    Picireny env a = (ws, Except.error e) := by
  unfold Picireny
  rw [h]

/-- On successful assembly, the reducer runs the engine on the assembled
configuration with the initially empty shared issues dict. -/
theorem picireny_of_assemble_ok (env : Env) (a : Args) (ws : List String) (cfg : CallConfig)
    (h : PicirenyAssemble env a = (ws, Except.ok cfg)) :
    Picireny env a =
      (match env.call cfg [] with
       | (m, Except.error _) => (ws, Except.ok (none, m.map Prod.snd))
       | (m, Except.ok reduced_file) =>
         match env.fs reduced_file with
         | none => (ws, Except.error PyError.osError)
         | some bs => (ws, Except.ok (some bs, m.map Prod.snd))) := by
  unfold Picireny
  rw [h]

/-- The warning-message expression of line 100,
`'Exception in island descriptor: ' % err`: the format string contains no
conversion specifier, so it raises `TypeError`. -/
theorem islandMsgFormat_raises :
    pyPercentFormat "Exception in island descriptor: " = Except.error PyError.typeError := rfl

/-- A decode/parse failure of the island bytes reaches the `except`
branch, whose warning-message expression raises `TypeError` before
`listener.warning` runs. -/
theorem loadIslands_parse_failure (env : Env) (p : String) (bs : Bytes)
    (hne : p ≠ "") (hfs : env.fs p = some bs) (hparse : env.islandParse bs = none) :
    loadIslands env (some p) = ([], Except.error PyError.typeError) := by
  simp only [loadIslands, if_neg hne, hfs, hparse, islandMsgFormat_raises]

/-- An open/read failure of the islands file happens outside the `try`. -/
theorem loadIslands_open_failure (env : Env) (p : String)
    (hne : p ≠ "") (hfs : env.fs p = none) :
    loadIslands env (some p) = ([], Except.error PyError.osError) := by
  simp only [loadIslands, if_neg hne, hfs]

/-! ## Claim theorems -/

/-- C1 (code bug): when the islands file reads successfully but its
contents fail to decode or parse as an island descriptor, the `except`
branch's message expression `'Exception in island descriptor: ' % err`
itself raises `TypeError` (the format string has no conversion
specifier), so no warning is emitted and the whole reduction call aborts
with that exception before the engine is ever invoked — instead of
warning once and proceeding without islands as the claim states. -/
theorem c1_island_parse_failure_aborts (env : Env) (a : Args) (p : String) (bs : Bytes)
    (hddminV : HddMin) (splitV : Splitter) (subsetIt complementIt : Iterator)
    (cacheBase : CacheBase)
    (hp : a.islands = some p) (hne : p ≠ "")
    (hfs : env.fs p = some bs) (hparse : env.islandParse bs = none)
    (h1 : env.hdd_choices (hddKey a.hddmin) = some hddminV)
    (h2 : env.config_splitters a.split_method = some splitV)
    (h3 : env.config_iterators a.subset_iterator = some subsetIt)
    (h4 : env.config_iterators a.complement_iterator = some complementIt)
    (h5 : env.picire_attrs a.cache_class = some cacheBase) :
    ∀ c, Picireny { env with call := c } a = ([], Except.error PyError.typeError) := by
  intro c
  apply picireny_of_assemble_error
  rw [assemble_call_irrelevant]
  unfold PicirenyAssemble
  rw [h1, h2, h3, h4, h5, hp, loadIslands_parse_failure env p bs hne hfs hparse]

/-- C1 witness: on a concrete environment whose island file holds
unparsable bytes, the reduction call aborts with `TypeError` and emits no
warning. -/
theorem c1_island_parse_failure_aborts_witness :
    Picireny env0 argsIsl = ([], Except.error PyError.typeError) := by
  have h := c1_island_parse_failure_aborts env0 argsIsl "islands.json" [33]
    "hddmin-full" "split-zeller" "it-forward" "it-forward" "ContentCache"
    rfl (by decide) rfl rfl rfl rfl rfl rfl rfl
  exact h env0.call

/-- C2 counterexample: with parallel mode disabled and `jobs=7` requested,
the assembled engine configuration carries no worker count at all
(`proc_num` is absent), so in particular the jobs value passed to the
engine configuration is not `1`. -/
theorem c2_counterexample :
    ∃ cfg : CallConfig, (PicirenyAssemble env0 argsSeq7).2 = Except.ok cfg ∧
      cfg.reduce_config.proc_num ≠ some 1 ∧ cfg.reduce_config.proc_num = none := by
  refine ⟨getOkCfg (PicirenyAssemble env0 argsSeq7).2, rfl, by decide, rfl⟩

/-- C2 (amended): with parallel mode disabled, `jobs` is resolved to
exactly `1` regardless of the requested value, but no worker count is
included in the engine configuration (`proc_num` is only set in parallel
mode, where it carries the requested jobs value, defaulting to
`os.cpu_count()` when `jobs` was not given). -/
theorem c2_jobs_resolution (env : Env) (a : Args) (hddminV : HddMin) (splitV : Splitter)
    (subsetIt complementIt : Iterator) (cacheBase : CacheBase)
    (ws : List String) (islandsV : IslandsVal) (grammarV : Grammar)
    (h1 : env.hdd_choices (hddKey a.hddmin) = some hddminV)
    (h2 : env.config_splitters a.split_method = some splitV)
    (h3 : env.config_iterators a.subset_iterator = some subsetIt)
    (h4 : env.config_iterators a.complement_iterator = some complementIt)
    (h5 : env.picire_attrs a.cache_class = some cacheBase)
    (h6 : loadIslands env a.islands = (ws, Except.ok islandsV))
    (h7 : env.json_loads a.grammar = some grammarV) :
    resolveJobs false a.jobs env.cpu_count = 1 ∧
    (a.jobs = none → resolveJobs true a.jobs env.cpu_count = env.cpu_count) ∧
    ∃ cfg : CallConfig, (PicirenyAssemble env a).2 = Except.ok cfg ∧
      cfg.reduce_config.proc_num =
        (if a.parallel then some (resolveJobs a.parallel a.jobs env.cpu_count) else none) := by
  refine ⟨rfl, ?_, ?_⟩
  · intro hj
    simp [resolveJobs, hj]
  · refine ⟨_, by rw [assemble_eq env a hddminV splitV subsetIt complementIt cacheBase
      ws islandsV grammarV h1 h2 h3 h4 h5 h6 h7], ?_⟩
    cases hpar : a.parallel <;> cases hcl : a.combine_loops <;>
      simp [mkCallConfig, chooseReducer, hpar, hcl, resolveJobs]

/-- C2 witness: at the concrete sequential configuration requesting 7
jobs, the resolved jobs value is 1 while the engine configuration has no
worker count. -/
theorem c2_jobs_resolution_witness :
    resolveJobs false argsSeq7.jobs env0.cpu_count = 1 ∧
    (argsSeq7.jobs = none → resolveJobs true argsSeq7.jobs env0.cpu_count = env0.cpu_count) ∧
    ∃ cfg : CallConfig, (PicirenyAssemble env0 argsSeq7).2 = Except.ok cfg ∧
      cfg.reduce_config.proc_num =
        (if argsSeq7.parallel then some (resolveJobs argsSeq7.parallel argsSeq7.jobs env0.cpu_count)
         else none) :=
  c2_jobs_resolution env0 argsSeq7 "hddmin-full" "split-zeller" "it-forward" "it-forward"
    "ContentCache" [] IslandsVal.nil ["g.g4"] rfl rfl rfl rfl rfl rfl rfl

/-- C3: the cache class passed to the engine is the
`shared_cache_decorator`-wrapped form of the class resolved from
`cache_class` exactly when parallel mode is enabled, and the bare resolved
class when it is disabled. -/
theorem c3_cache_wrapping (env : Env) (a : Args) (hddminV : HddMin) (splitV : Splitter)
    (subsetIt complementIt : Iterator) (cacheBase : CacheBase)
    (ws : List String) (islandsV : IslandsVal) (grammarV : Grammar)
    (h1 : env.hdd_choices (hddKey a.hddmin) = some hddminV)
    (h2 : env.config_splitters a.split_method = some splitV)
    (h3 : env.config_iterators a.subset_iterator = some subsetIt)
    (h4 : env.config_iterators a.complement_iterator = some complementIt)
    (h5 : env.picire_attrs a.cache_class = some cacheBase)
    (h6 : loadIslands env a.islands = (ws, Except.ok islandsV))
    (h7 : env.json_loads a.grammar = some grammarV) :
    ∃ cfg : CallConfig, (PicirenyAssemble env a).2 = Except.ok cfg ∧
      cfg.cache_class =
        (if a.parallel then CacheVal.shared cacheBase else CacheVal.bare cacheBase) ∧
      (a.parallel = true → cfg.cache_class = CacheVal.shared cacheBase) ∧
      (a.parallel = false → cfg.cache_class = CacheVal.bare cacheBase) := by
  refine ⟨_, by rw [assemble_eq env a hddminV splitV subsetIt complementIt cacheBase
    ws islandsV grammarV h1 h2 h3 h4 h5 h6 h7], rfl, ?_, ?_⟩
  · intro hpar
    simp [mkCallConfig, hpar]
  · intro hpar
    simp [mkCallConfig, hpar]

/-- C3 witness: at the concrete parallel configuration, the cache handed
to the engine is the wrapped form of the resolved `ContentCache`. -/
theorem c3_cache_wrapping_witness :
    ∃ cfg : CallConfig, (PicirenyAssemble env0 argsPar).2 = Except.ok cfg ∧
      cfg.cache_class =
        (if argsPar.parallel then CacheVal.shared "ContentCache"
         else CacheVal.bare "ContentCache") ∧
      (argsPar.parallel = true → cfg.cache_class = CacheVal.shared "ContentCache") ∧
      (argsPar.parallel = false → cfg.cache_class = CacheVal.bare "ContentCache") :=
  c3_cache_wrapping env0 argsPar "hddmin-full" "split-zeller" "it-forward" "it-forward"
    "ContentCache" [] IslandsVal.nil ["g.g4"] rfl rfl rfl rfl rfl rfl rfl

/-- C4: if the engine call raises, the reducer returns `None` as the
reduced artifact together with exactly the values of the shared
discovered-issues dict as recorded up to the exception — nothing lost,
nothing duplicated. -/
theorem c4_engine_failure (env : Env) (a : Args) (hddminV : HddMin) (splitV : Splitter)
    (subsetIt complementIt : Iterator) (cacheBase : CacheBase)
    (ws : List String) (islandsV : IslandsVal) (grammarV : Grammar) (m : IssuesMap)
    (h1 : env.hdd_choices (hddKey a.hddmin) = some hddminV)
    (h2 : env.config_splitters a.split_method = some splitV)
    (h3 : env.config_iterators a.subset_iterator = some subsetIt)
    (h4 : env.config_iterators a.complement_iterator = some complementIt)
    (h5 : env.picire_attrs a.cache_class = some cacheBase)
    (h6 : loadIslands env a.islands = (ws, Except.ok islandsV))
    (h7 : env.json_loads a.grammar = some grammarV)
    (heng : env.call (mkCallConfig env a hddminV splitV subsetIt complementIt cacheBase
      islandsV grammarV) [] = (m, Except.error ())) :
    Picireny env a = (ws, Except.ok (none, m.map Prod.snd)) := by
  rw [picireny_of_assemble_ok env a ws _ (assemble_eq env a hddminV splitV subsetIt
    complementIt cacheBase ws islandsV grammarV h1 h2 h3 h4 h5 h6 h7), heng]

/-- C4 witness: a concrete engine that records one foreign issue and then
raises yields `(None, [that issue])`. -/
theorem c4_engine_failure_witness :
    Picireny envC4 args0 = ([], Except.ok (none, [oi0])) :=
  c4_engine_failure envC4 args0 "hddmin-full" "split-zeller" "it-forward" "it-forward"
    "ContentCache" [] IslandsVal.nil ["g.g4"] [("crash-2", oi0)]
    rfl rfl rfl rfl rfl rfl rfl rfl

/-- C5: with parallel mode off the sequential engine `picire.LightDD` is
selected, configured with the subset-first flag and the resolved subset
and complement iterators; with parallel mode on,
`picire.CombinedParallelDD` with one merged `CombinedIterator` is selected
when `combine_loops` is set, and `picire.ParallelDD` with separate
iterators otherwise; both parallel variants additionally receive the
worker count and the utilization cap. -/
theorem c5_mode_selection (env : Env) (a : Args) (hddminV : HddMin) (splitV : Splitter)
    (subsetIt complementIt : Iterator) (cacheBase : CacheBase)
    (ws : List String) (islandsV : IslandsVal) (grammarV : Grammar)
    (h1 : env.hdd_choices (hddKey a.hddmin) = some hddminV)
    (h2 : env.config_splitters a.split_method = some splitV)
    (h3 : env.config_iterators a.subset_iterator = some subsetIt)
    (h4 : env.config_iterators a.complement_iterator = some complementIt)
    (h5 : env.picire_attrs a.cache_class = some cacheBase)
    (h6 : loadIslands env a.islands = (ws, Except.ok islandsV))
    (h7 : env.json_loads a.grammar = some grammarV) :
    ∃ cfg : CallConfig, (PicirenyAssemble env a).2 = Except.ok cfg ∧
      (a.parallel = false →
        cfg.reduce_class = ReduceClass.LightDD ∧
        cfg.reduce_config =
          { split := splitV
            subset_iterator := some subsetIt
            complement_iterator := some complementIt
            subset_first := some a.subset_first
            proc_num := none
            max_utilization := none
            config_iterator := none }) ∧
      (a.parallel = true → a.combine_loops = true →
        cfg.reduce_class = ReduceClass.CombinedParallelDD ∧
        cfg.reduce_config =
          { split := splitV
            subset_iterator := none
            complement_iterator := none
            subset_first := none
            proc_num := some (a.jobs.getD env.cpu_count)
            max_utilization := some a.max_utilization
            config_iterator := some
              { subset_first := a.subset_first
                subset_iterator := subsetIt
                complement_iterator := complementIt } }) ∧
      (a.parallel = true → a.combine_loops = false →
        cfg.reduce_class = ReduceClass.ParallelDD ∧
        cfg.reduce_config =
          { split := splitV
            subset_iterator := some subsetIt
            complement_iterator := some complementIt
            subset_first := some a.subset_first
            proc_num := some (a.jobs.getD env.cpu_count)
            max_utilization := some a.max_utilization
            config_iterator := none }) := by
  refine ⟨_, by rw [assemble_eq env a hddminV splitV subsetIt complementIt cacheBase
    ws islandsV grammarV h1 h2 h3 h4 h5 h6 h7], ?_, ?_, ?_⟩
  · intro hpar
    constructor <;> simp [mkCallConfig, chooseReducer, hpar, resolveJobs]
  · intro hpar hcl
    constructor <;> simp [mkCallConfig, chooseReducer, hpar, hcl, resolveJobs]
  · intro hpar hcl
    constructor <;> simp [mkCallConfig, chooseReducer, hpar, hcl, resolveJobs]

/-- C5 witness: the concrete sequential configuration selects `LightDD`
with separate iterators and the subset-first flag. -/
theorem c5_mode_selection_witness :
    ∃ cfg : CallConfig, (PicirenyAssemble env0 args0).2 = Except.ok cfg ∧
      (args0.parallel = false →
        cfg.reduce_class = ReduceClass.LightDD ∧
        cfg.reduce_config =
          { split := "split-zeller"
            subset_iterator := some "it-forward"
            complement_iterator := some "it-forward"
            subset_first := some args0.subset_first
            proc_num := none
            max_utilization := none
            config_iterator := none }) ∧
      (args0.parallel = true → args0.combine_loops = true →
        cfg.reduce_class = ReduceClass.CombinedParallelDD ∧
        cfg.reduce_config =
          { split := "split-zeller"
            subset_iterator := none
            complement_iterator := none
            subset_first := none
            proc_num := some (args0.jobs.getD env0.cpu_count)
            max_utilization := some args0.max_utilization
            config_iterator := some
              { subset_first := args0.subset_first
                subset_iterator := "it-forward"
                complement_iterator := "it-forward" } }) ∧
      (args0.parallel = true → args0.combine_loops = false →
        cfg.reduce_class = ReduceClass.ParallelDD ∧
        cfg.reduce_config =
          { split := "split-zeller"
            subset_iterator := some "it-forward"
            complement_iterator := some "it-forward"
            subset_first := some args0.subset_first
            proc_num := some (args0.jobs.getD env0.cpu_count)
            max_utilization := some args0.max_utilization
            config_iterator := none }) :=
  c5_mode_selection env0 args0 "hddmin-full" "split-zeller" "it-forward" "it-forward"
    "ContentCache" [] IslandsVal.nil ["g.g4"] rfl rfl rfl rfl rfl rfl rfl

/-- C6: a configuration naming an unknown hddmin strategy, split method,
subset/complement iterator, or cache class makes the reducer fail with a
lookup error (`KeyError` from the hddmin choices dict or `AttributeError`
from `getattr`) that is propagated to the caller before the engine is
invoked — the same error results no matter how the engine would have
behaved — rather than silently substituting a default. -/
theorem c6_unknown_name_fails_fast (env : Env) (a : Args)
    (h : env.hdd_choices (hddKey a.hddmin) = none ∨
         env.config_splitters a.split_method = none ∨
         env.config_iterators a.subset_iterator = none ∨
         env.config_iterators a.complement_iterator = none ∨
         env.picire_attrs a.cache_class = none) :
    ∃ e : PyError, (e = PyError.keyError ∨ e = PyError.attributeError) ∧
      ∀ c, Picireny { env with call := c } a = ([], Except.error e) := by
  have key : ∃ e : PyError, (e = PyError.keyError ∨ e = PyError.attributeError) ∧
      PicirenyAssemble env a = ([], Except.error e) := by
    cases hh1 : env.hdd_choices (hddKey a.hddmin) with
    | none =>
      refine ⟨PyError.keyError, Or.inl rfl, ?_⟩
      unfold PicirenyAssemble
      rw [hh1]
    | some v1 =>
      cases hh2 : env.config_splitters a.split_method with
      | none =>
        refine ⟨PyError.attributeError, Or.inr rfl, ?_⟩
        unfold PicirenyAssemble
        rw [hh1, hh2]
      | some v2 =>
        cases hh3 : env.config_iterators a.subset_iterator with
        | none =>
          refine ⟨PyError.attributeError, Or.inr rfl, ?_⟩
          unfold PicirenyAssemble
          rw [hh1, hh2, hh3]
        | some v3 =>
          cases hh4 : env.config_iterators a.complement_iterator with
          | none =>
            refine ⟨PyError.attributeError, Or.inr rfl, ?_⟩
            unfold PicirenyAssemble
            rw [hh1, hh2, hh3, hh4]
          | some v4 =>
            cases hh5 : env.picire_attrs a.cache_class with
            | none =>
              refine ⟨PyError.attributeError, Or.inr rfl, ?_⟩
              unfold PicirenyAssemble
              rw [hh1, hh2, hh3, hh4, hh5]
            | some v5 =>
              rw [hh1, hh2, hh3, hh4, hh5] at h
              simp at h
  obtain ⟨e, he, ha⟩ := key
  refine ⟨e, he, fun c => ?_⟩
  apply picireny_of_assemble_error
  rw [assemble_call_irrelevant]
  exact ha

/-- C6 witness: an unknown split-method name produces a lookup error
independent of the engine. -/
theorem c6_unknown_name_fails_fast_witness :
    ∃ e : PyError, (e = PyError.keyError ∨ e = PyError.attributeError) ∧
      ∀ c, Picireny { env0 with call := c } argsBadSplit = ([], Except.error e) :=
  c6_unknown_name_fails_fast env0 argsBadSplit (Or.inr (Or.inl (by decide)))

/-- C7 (oracle adapter, modelled from the spec): an invocation observing
the expected failure identity is classified "fail" and adds nothing to
the discovered-issues dict; one observing a different failure identity is
classified "pass" and is recorded under that identity; over any whole run
started from the empty dict, the key list has no duplicates (exactly one
entry per identity no matter how often it recurs), a key is present
exactly when some invocation observed that identity and it differs from
the expected one, and the expected identity never appears. -/
theorem c7_oracle_classification (expected : String) (os : List Outcome) :
    (∀ (i : OIssue) (m : IssuesMap), i.id = expected →
        testerStep expected m (Outcome.issue i) = (TestResult.fail, m)) ∧
    (∀ (i : OIssue) (m : IssuesMap), i.id ≠ expected →
        (testerStep expected m (Outcome.issue i)).1 = TestResult.pass ∧
        i.id ∈ (testerStep expected m (Outcome.issue i)).2.map Prod.fst) ∧
    ((testerRun expected os []).map Prod.fst).Nodup ∧
    (∀ x, x ∈ (testerRun expected os []).map Prod.fst ↔
        (∃ i, Outcome.issue i ∈ os ∧ i.id = x) ∧ x ≠ expected) ∧
    expected ∉ (testerRun expected os []).map Prod.fst := by
  refine ⟨?_, ?_, ?_, ?_, ?_⟩
  · intro i m h
    simp [testerStep, h]
  · intro i m h
    refine ⟨by simp [testerStep, h], ?_⟩
    simp only [testerStep, if_neg h]
    rw [mem_keys_dictInsert]
    exact Or.inr rfl
  · exact testerRun_keys_nodup expected os [] (by simp)
  · intro x
    rw [testerRun_keys_mem]
    constructor
    · rintro (hx | ⟨i, hmem, hix, hne⟩)
      · simp at hx
      · exact ⟨⟨i, hmem, hix⟩, hne⟩
    · rintro ⟨⟨i, hmem, hix⟩, hne⟩
      exact Or.inr ⟨i, hmem, hix, hne⟩
  · intro hmem
    rw [testerRun_keys_mem] at hmem
    rcases hmem with hx | ⟨i, _, _, hne⟩
    · simp at hx
    · exact hne rfl

/-- C7 witness: over the concrete history `outcomes0` with expected
identity `"crash-1"`, a matching invocation is classified "fail" without
recording, the twice-observed foreign identity `"crash-2"` is present,
the key list has no duplicates, and the expected identity is absent. -/
theorem c7_oracle_classification_witness :
    testerStep "crash-1" [] (Outcome.issue { id := "crash-1", data := 9 })
      = (TestResult.fail, []) ∧
    "crash-2" ∈ (testerRun "crash-1" outcomes0 []).map Prod.fst ∧
    ((testerRun "crash-1" outcomes0 []).map Prod.fst).Nodup ∧
    "crash-1" ∉ (testerRun "crash-1" outcomes0 []).map Prod.fst := by
  have h := c7_oracle_classification "crash-1" outcomes0
  exact ⟨h.1 { id := "crash-1", data := 9 } [] rfl,
    (h.2.2.2.1 "crash-2").mpr ⟨⟨{ id := "crash-2", data := 7 }, by decide, rfl⟩, by decide⟩,
    h.2.2.1, h.2.2.2.2⟩

/-- C8: when the `hddmin` option is unset, the strategy resolved from the
engine's hddmin choices table is the entry named `'full'`, and it is what
the assembled configuration carries. -/
theorem c8_hddmin_default (env : Env) (a : Args) (hddminV : HddMin) (splitV : Splitter)
    (subsetIt complementIt : Iterator) (cacheBase : CacheBase)
    (ws : List String) (islandsV : IslandsVal) (grammarV : Grammar)
    (hunset : a.hddmin = none)
    (h1 : env.hdd_choices (hddKey a.hddmin) = some hddminV)
    (h2 : env.config_splitters a.split_method = some splitV)
    (h3 : env.config_iterators a.subset_iterator = some subsetIt)
    (h4 : env.config_iterators a.complement_iterator = some complementIt)
    (h5 : env.picire_attrs a.cache_class = some cacheBase)
    (h6 : loadIslands env a.islands = (ws, Except.ok islandsV))
    (h7 : env.json_loads a.grammar = some grammarV) :
    ∃ cfg : CallConfig, (PicirenyAssemble env a).2 = Except.ok cfg ∧
      env.hdd_choices "full" = some cfg.hddmin := by
  refine ⟨_, by rw [assemble_eq env a hddminV splitV subsetIt complementIt cacheBase
    ws islandsV grammarV h1 h2 h3 h4 h5 h6 h7], ?_⟩
  rw [hunset] at h1
  simpa [hddKey, mkCallConfig] using h1

/-- C8 witness: `args0` leaves `hddmin` unset and the assembled
configuration carries the table's `'full'` entry. -/
theorem c8_hddmin_default_witness :
    ∃ cfg : CallConfig, (PicirenyAssemble env0 args0).2 = Except.ok cfg ∧
      env0.hdd_choices "full" = some cfg.hddmin :=
  c8_hddmin_default env0 args0 "hddmin-full" "split-zeller" "it-forward" "it-forward"
    "ContentCache" [] IslandsVal.nil ["g.g4"] rfl rfl rfl rfl rfl rfl rfl rfl

/-- C9: when the islands file cannot be opened or read, the exception
propagates to the caller and aborts the reduction with no warning
emitted and without the engine being invoked: the `open`/`read` of lines
95-96 sit outside the `try` that guards only the decode/parse of the
bytes already read. -/
theorem c9_island_open_failure_propagates (env : Env) (a : Args) (p : String)
    (hddminV : HddMin) (splitV : Splitter) (subsetIt complementIt : Iterator)
    (cacheBase : CacheBase)
    (hp : a.islands = some p) (hne : p ≠ "") (hfs : env.fs p = none)
    (h1 : env.hdd_choices (hddKey a.hddmin) = some hddminV)
    (h2 : env.config_splitters a.split_method = some splitV)
    (h3 : env.config_iterators a.subset_iterator = some subsetIt)
    (h4 : env.config_iterators a.complement_iterator = some complementIt)
    (h5 : env.picire_attrs a.cache_class = some cacheBase) :
    ∀ c, Picireny { env with call := c } a = ([], Except.error PyError.osError) := by
  intro c
  apply picireny_of_assemble_error
  rw [assemble_call_irrelevant]
  unfold PicirenyAssemble
  rw [h1, h2, h3, h4, h5, hp, loadIslands_open_failure env p hne hfs]

/-- C9 witness: a missing islands file aborts the concrete reduction call
with `OSError` and no warning. -/
theorem c9_island_open_failure_propagates_witness :
    Picireny env0 argsIslMissing = ([], Except.error PyError.osError) := by
  have h := c9_island_open_failure_propagates env0 argsIslMissing "missing.json"
    "hddmin-full" "split-zeller" "it-forward" "it-forward" "ContentCache"
    rfl (by decide) rfl rfl rfl rfl rfl rfl
  exact h env0.call

/-- C10: a grammar argument that is not valid JSON makes the reduction
call raise before the engine is ever invoked (the same exception results
no matter how the engine would have behaved), rather than returning the
`(None, discovered-issues)` failure shape: `json.loads(grammar)` is
evaluated while assembling the call payload, outside the `try` that
guards the engine call. -/
theorem c10_grammar_parse_failure (env : Env) (a : Args)
    (hddminV : HddMin) (splitV : Splitter) (subsetIt complementIt : Iterator)
    (cacheBase : CacheBase) (ws : List String) (islandsV : IslandsVal)
    (h1 : env.hdd_choices (hddKey a.hddmin) = some hddminV)
    (h2 : env.config_splitters a.split_method = some splitV)
    (h3 : env.config_iterators a.subset_iterator = some subsetIt)
    (h4 : env.config_iterators a.complement_iterator = some complementIt)
    (h5 : env.picire_attrs a.cache_class = some cacheBase)
    (h6 : loadIslands env a.islands = (ws, Except.ok islandsV))
    (hg : env.json_loads a.grammar = none) :
    ∀ c, Picireny { env with call := c } a = (ws, Except.error PyError.jsonError) := by
  intro c
  apply picireny_of_assemble_error
  rw [assemble_call_irrelevant]
  unfold PicirenyAssemble
  rw [h1, h2, h3, h4, h5, h6, hg]

/-- C10 witness: the concrete configuration with grammar `"not json"`
raises before the engine runs. -/
theorem c10_grammar_parse_failure_witness :
    Picireny env0 argsBadGrammar = ([], Except.error PyError.jsonError) := by
  have h := c10_grammar_parse_failure env0 argsBadGrammar "hddmin-full" "split-zeller"
    "it-forward" "it-forward" "ContentCache" [] IslandsVal.nil
    rfl rfl rfl rfl rfl rfl rfl
  exact h env0.call

end Fuzzinator
